import Mathlib

/-!
Shallow embedding of the DocuAgent static extraction pipeline
(`docuagent/analyzer/parser.py`, `docuagent/analyzer/extractor.py`,
`docuagent/toc/generator.py`, `docuagent/toc/persistence.py`) together with
theorems settling the specification claims about it.

Conventions of the embedding:
- Python `str` is `String`; Python string primitives that the Lean core
  implements without kernel-reducible definitions (`startswith`, `replace`,
  `isupper`, `endswith`) are re-implemented on the character list, faithful to
  Python semantics for the identifier/path strings the code feeds them.
- Python `dict` (insertion ordered) is an association list
  `List (String × _)`; `dict[k] = v` keeps the position of an existing key
  (`dinsert`), lookup is `List.lookup`.
- Fallible code is `Except`: a Python statement that can raise becomes an
  `Except.error`; file states that decide which exception paths run are
  reified as small inductive types (`SelFile`, `DescFile`, `ParseOutcome`).
- `ast.unparse e` of an expression is abstracted as the resulting
  `Option String` (`none` models the `except Exception` fallback of
  `_get_constant_value`).
-/

deriving instance DecidableEq for Except

/-- Python `str.startswith`, re-implemented on the character list so that it
evaluates in the kernel. -/
def starts_with (s pre : String) : Bool := pre.data.isPrefixOf s.data

/-- Python `str.endswith`, re-implemented on the character list. -/
def ends_with (s suf : String) : Bool := suf.data.isSuffixOf s.data

/-- Python `path.replace("/", ".").replace("\\", ".")` from
`TOCGenerator._format_module_title`; both patterns are single characters, so
one character map is equivalent. -/
def replace_seps (s : String) : String :=
  String.mk (s.data.map (fun c => if c = '/' ∨ c = '\\' then '.' else c))

/-- Python `str.isupper`: at least one cased character and no cased character
lowercase (exact for the ASCII identifier strings constant names are). -/
def py_isupper (s : String) : Bool :=
  s.data.any Char.isAlpha && s.data.all (fun c => !c.isLower)

/-- Python truthiness of an optional string (`if p.default_value:`):
`None` and the empty string are falsy. -/
def py_truthy : Option String → Bool
  | none => false
  | some s => !(s == "")

/-- Insertion into an insertion-ordered association list with Python `dict`
assignment semantics: an existing key keeps its position and gets the new
value, a new key is appended at the end. -/
def dinsert (k : String) (v : α) : List (String × α) → List (String × α)
  | [] => [(k, v)]
  | (k', v') :: rest => if k' = k then (k, v) :: rest else (k', v') :: dinsert k v rest

/-- Stable insertion of one element into a sorted list (kept before later
equal keys). -/
def stable_insert (le : α → α → Bool) (x : α) : List α → List α
  | [] => [x]
  | y :: ys => if le x y then x :: y :: ys else y :: stable_insert le x ys

/-- Stable sort; Python `list.sort(key=...)` is a stable sort by key, and a
stable sort by a total preorder has a unique result, so this insertion sort
produces exactly the list the source produces. -/
def stable_sort (le : α → α → Bool) : List α → List α
  | [] => []
  | x :: xs => stable_insert le x (stable_sort le xs)

/-! ## Component model (`docuagent/models/components.py`)

Presentation-only fields (`docstring`, `source_code`, `ai_description`,
`imports`, `all_exports`, `return_type`) that no modelled function reads are
kept only where a modelled function constructs or copies them; the rest are
omitted. `ComponentType.cls` and `ComponentType.var` stand for the source
values `class` and `variable`, which are Lean keywords. -/

inductive ComponentType where
  | module | cls | function | method | property | constant | var
deriving Repr, DecidableEq

structure ParameterInfo where
  name : String
  type_ann : Option String := none
  default_value : Option String := none
  description : Option String := none
deriving Repr, DecidableEq

structure FunctionComponent where
  id : String
  name : String
  file_path : String
  line_number : Nat
  parameters : List ParameterInfo := []
  is_async : Bool := false
  decorators : List String := []
deriving Repr, DecidableEq

structure MethodComponent where
  id : String
  name : String
  file_path : String
  line_number : Nat
  parameters : List ParameterInfo := []
  is_async : Bool := false
  decorators : List String := []
  is_static : Bool := false
  is_classmethod : Bool := false
  is_property : Bool := false
  parent_class : Option String := none
deriving Repr, DecidableEq

structure PropertyComponent where
  id : String
  name : String
  file_path : String
  line_number : Nat
  type_ann : Option String := none
  default_value : Option String := none
  is_class_var : Bool := false
deriving Repr, DecidableEq

structure ClassComponent where
  id : String
  name : String
  file_path : String
  line_number : Nat
  base_classes : List String := []
  methods : List MethodComponent := []
  properties : List PropertyComponent := []
  class_variables : List PropertyComponent := []
  decorators : List String := []
deriving Repr, DecidableEq

structure ModuleComponent where
  id : String
  name : String
  file_path : String
  line_number : Nat
  classes : List ClassComponent := []
  functions : List FunctionComponent := []
  constants : List PropertyComponent := []
deriving Repr, DecidableEq

/-- TOC entry (`models/components.py:TOCEntry`); an inductive because the
record is recursive through `children`. -/
inductive TOCEntry where
  | mk (id : String) (title : String) (ctype : ComponentType) (level : Nat)
      (parent_id : Option String) (file_path : String) (line_number : Nat)
      (children : List TOCEntry)

def TOCEntry.id : TOCEntry → String
  | .mk i _ _ _ _ _ _ _ => i

def TOCEntry.title : TOCEntry → String
  | .mk _ t _ _ _ _ _ _ => t

def TOCEntry.ctype : TOCEntry → ComponentType
  | .mk _ _ c _ _ _ _ _ => c

def TOCEntry.level : TOCEntry → Nat
  | .mk _ _ _ l _ _ _ _ => l

def TOCEntry.parent_id : TOCEntry → Option String
  | .mk _ _ _ _ p _ _ _ => p

def TOCEntry.file_path : TOCEntry → String
  | .mk _ _ _ _ _ f _ _ => f

def TOCEntry.line_number : TOCEntry → Nat
  | .mk _ _ _ _ _ _ n _ => n

def TOCEntry.children : TOCEntry → List TOCEntry
  | .mk _ _ _ _ _ _ _ ch => ch

structure TOCSelection where
  entry_id : String
  included : Bool := true
  custom_title : Option String := none
  custom_description : Option String := none
deriving Repr, DecidableEq

/-! ## Parser (`docuagent/analyzer/parser.py`) -/

/-- `PythonParser._should_include` (parser.py:99); `include_private` is the
`self.include_private` field of the parser. -/
def should_include (include_private : Bool) (name : String)
    (all_exports : Option (List String)) : Bool :=
  match all_exports with
  | some exps => exps.contains name
  | none =>
    if include_private then true
    else if starts_with name "_" && !(starts_with name "__") then false
    else true

/-- The `special_methods` set of `PythonParser._should_include_method`
(parser.py:199). -/
def special_methods : List String :=
  ["__init__", "__new__", "__call__", "__enter__", "__exit__"]

/-- `PythonParser._should_include_method` (parser.py:193). -/
def should_include_method (include_private : Bool) (name : String) : Bool :=
  if include_private then true
  else if special_methods.contains name then true
  else if starts_with name "_" then false
  else true

/-- One element of `ast.arguments.args` / `kwonlyargs`: the parameter name and
the `_get_annotation` result of its annotation. -/
structure ArgNode where
  arg : String
  ann : Option String := none
deriving Repr, DecidableEq

/-- `ast.arguments` as `_parse_parameters` consumes it. `defaults` holds the
`_get_constant_value` result of each positional default expression;
`kw_defaults` entries are `none` where the AST holds `None` (no default), and
`some v` for a default expression whose `_get_constant_value` result is `v`.
`posonlyargs`, which the source never reads, is omitted. -/
structure ArgumentsNode where
  args : List ArgNode := []
  defaults : List (Option String) := []
  vararg : Option ArgNode := none
  kwonlyargs : List ArgNode := []
  kw_defaults : List (Option (Option String)) := []
  kwarg : Option ArgNode := none
deriving Repr, DecidableEq

/-- The `for i, arg in enumerate(args.args)` loop of `_parse_parameters`
(parser.py:262); `i` is the running index, `off` the `defaults_offset`
(an integer in Python, hence `Int` here). -/
def pos_loop (off : Int) (defaults : List (Option String)) :
    Nat → List ArgNode → List ParameterInfo
  | _, [] => []
  | i, a :: rest =>
    if a.arg = "self" ∨ a.arg = "cls" then pos_loop off defaults (i + 1) rest
    else
      { name := a.arg, type_ann := a.ann,
        default_value :=
          if (i : Int) ≥ off then defaults.getD ((i : Int) - off).toNat none
          else none } :: pos_loop off defaults (i + 1) rest

/-- The `for i, arg in enumerate(args.kwonlyargs)` loop of `_parse_parameters`
(parser.py:290): the default is taken from `kw_defaults[i]` when that index
exists and is not `None`. -/
def kwonly_loop : Nat → List ArgNode → List (Option (Option String)) → List ParameterInfo
  | _, [], _ => []
  | i, a :: rest, kds =>
    { name := a.arg, type_ann := a.ann,
      default_value :=
        match kds.getD i none with
        | some v => v
        | none => none } :: kwonly_loop (i + 1) rest kds

/-- `PythonParser._parse_parameters` (parser.py:253). -/
def parse_parameters (args : ArgumentsNode) : List ParameterInfo :=
  let num_defaults : Int := args.defaults.length
  let num_args : Int := args.args.length
  let defaults_offset : Int := num_args - num_defaults
  pos_loop defaults_offset args.defaults 0 args.args
    ++ (match args.vararg with
        | some a => [{ name := "*" ++ a.arg, type_ann := a.ann }]
        | none => [])
    ++ kwonly_loop 0 args.kwonlyargs args.kw_defaults
    ++ (match args.kwarg with
        | some a => [{ name := "**" ++ a.arg, type_ann := a.ann }]
        | none => [])

/-- Outcome of `file_path.read_text(...)` followed by `ast.parse(...)` inside
`PythonParser.parse_file` (parser.py:45): either a successfully parsed tree —
abstracted here by the `ModuleComponent` the rest of the method builds from it
(that construction is embedded separately as `should_include`,
`parse_parameters`, ...) — or the `SyntaxError` / `UnicodeDecodeError` the
`except` clause catches. -/
inductive ParseOutcome where
  | tree (m : ModuleComponent)
  | synErr (msg : String)
  | encErr (msg : String)
deriving Repr, DecidableEq

def ParseOutcome.is_failure : ParseOutcome → Bool
  | .tree _ => false
  | .synErr _ => true
  | .encErr _ => true

/-- `PythonParser.parse_file` (parser.py:35): both caught exceptions print a
warning and return `None`; a parsed tree yields the module record. -/
def parse_file : ParseOutcome → Option ModuleComponent
  | .tree m => some m
  | .synErr _ => none
  | .encErr _ => none

/-- `APIExtractor._has_public_api` (extractor.py:119). -/
def has_public_api (m : ModuleComponent) : Bool :=
  !m.classes.isEmpty || !m.functions.isEmpty || !m.constants.isEmpty

/-- `APIExtractor.extract` (extractor.py:68) over the per-file parse outcomes
of the files `_find_python_files` produced: parse each file, keep modules that
parsed and have a public API, and sort by `file_path` (Python `sort` with a
key is the stable sort by that key). -/
def extract (files : List ParseOutcome) : List ModuleComponent :=
  stable_sort (fun a b => decide (a.file_path ≤ b.file_path))
    ((files.filterMap parse_file).filter has_public_api)

/-! ## TOC generator (`docuagent/toc/generator.py`) -/

structure TOCGenerator where
  group_by_module : Bool := true
  include_methods : Bool := true
  include_properties : Bool := true
deriving Repr, DecidableEq

/-- `TOCGenerator._format_module_title` (generator.py:156). -/
def format_module_title (m : ModuleComponent) : String :=
  let path := replace_seps m.file_path
  if ends_with path ".py" then path.dropRight 3 else path

/-- `TOCGenerator._format_class_title` (generator.py:164). -/
def format_class_title (cls : ClassComponent) : String :=
  if cls.base_classes.isEmpty then cls.name
  else
    let bases := String.intercalate ", " (cls.base_classes.take 2)
    let bases := if cls.base_classes.length > 2 then bases ++ ", ..." else bases
    cls.name ++ "(" ++ bases ++ ")"

/-- `TOCGenerator._format_function_title` (generator.py:174). -/
def format_function_title (func : FunctionComponent) : String :=
  let params := (func.parameters.take 3).map (fun p =>
    if py_truthy p.default_value then p.name ++ "=..." else p.name)
  let params := if func.parameters.length > 3 then params ++ ["..."] else params
  let pref := if func.is_async then "async " else ""
  pref ++ func.name ++ "(" ++ String.intercalate ", " params ++ ")"

/-- `TOCGenerator._format_method_title` (generator.py:189). -/
def format_method_title (method : MethodComponent) : String :=
  let params := (method.parameters.take 2).map (fun p => p.name)
  let params := if method.parameters.length > 2 then params ++ ["..."] else params
  let pref :=
    if method.is_static then "@staticmethod "
    else if method.is_classmethod then "@classmethod "
    else if method.is_async then "async " else ""
  pref ++ method.name ++ "(" ++ String.intercalate ", " params ++ ")"

/-- `TOCGenerator._is_significant_constant` (generator.py:208). -/
def is_significant_constant (name : String) : Bool :=
  if py_isupper name then true
  else if ["__version__", "__author__", "__all__"].contains name then true
  else false

/-- Method child entry built inside `_create_class_entry` (generator.py:103). -/
def create_method_entry (method : MethodComponent) (cls_id : String) : TOCEntry :=
  .mk method.id (format_method_title method) .method 2 (some cls_id)
    method.file_path method.line_number []

/-- Property child entry built inside `_create_class_entry` (generator.py:117). -/
def create_property_entry (prop : PropertyComponent) (cls_id : String) : TOCEntry :=
  .mk prop.id prop.name .property 2 (some cls_id) prop.file_path prop.line_number []

/-- Class-variable child entry built inside `_create_class_entry`
(generator.py:129). -/
def create_var_entry (v : PropertyComponent) (cls_id : String) : TOCEntry :=
  .mk v.id v.name .var 2 (some cls_id) v.file_path v.line_number []

/-- `TOCGenerator._create_class_entry` (generator.py:87). -/
def create_class_entry (g : TOCGenerator) (cls : ClassComponent)
    (parent : String) : TOCEntry :=
  .mk cls.id (format_class_title cls) .cls 1 (some parent) cls.file_path
    cls.line_number
    ((if g.include_methods then cls.methods.map (fun m => create_method_entry m cls.id)
      else [])
      ++ (if g.include_properties then
            cls.properties.map (fun p => create_property_entry p cls.id)
              ++ cls.class_variables.map (fun v => create_var_entry v cls.id)
          else []))

/-- `TOCGenerator._create_function_entry` (generator.py:142). -/
def create_function_entry (func : FunctionComponent) (parent : String) : TOCEntry :=
  .mk func.id (format_function_title func) .function 1 (some parent)
    func.file_path func.line_number []

/-- Constant child entry built inside `_create_module_entry` (generator.py:74). -/
def create_const_entry (c : PropertyComponent) (parent : String) : TOCEntry :=
  .mk c.id c.name .constant 1 (some parent) c.file_path c.line_number []

/-- `TOCGenerator._create_module_entry` (generator.py:49). -/
def create_module_entry (g : TOCGenerator) (m : ModuleComponent) : TOCEntry :=
  .mk m.id (format_module_title m) .module 0 none m.file_path m.line_number
    (m.classes.map (fun cls => create_class_entry g cls m.id)
      ++ m.functions.map (fun f => create_function_entry f m.id)
      ++ (m.constants.filter (fun c => is_significant_constant c.name)).map
          (fun c => create_const_entry c m.id))

/-- `TOCGenerator.generate` (generator.py:32). -/
def generate (g : TOCGenerator) (modules : List ModuleComponent) : List TOCEntry :=
  modules.map (fun m => create_module_entry g m)

mutual

/-- The inner `_flatten(entry)` of `TOCGenerator.flatten` (generator.py:228):
the entry itself, then its children depth-first (pre-order). -/
def flattenEntry : TOCEntry → List TOCEntry
  | .mk i t c l p f n ch => .mk i t c l p f n ch :: flatten ch

/-- `TOCGenerator.flatten` (generator.py:217). -/
def flatten : List TOCEntry → List TOCEntry
  | [] => []
  | e :: es => flattenEntry e ++ flatten es

end

/-- `TOCGenerator.get_entry_by_id` (generator.py:238): the first entry of the
flattened outline whose id matches, else `None`. -/
def get_entry_by_id (entries : List TOCEntry) (entry_id : String) : Option TOCEntry :=
  (flatten entries).find? (fun e => e.id == entry_id)

/-- Parent/child consistency at one entry: every direct child carries this
entry's id as `parent_id` and this entry's level plus one. -/
def child_links_ok (e : TOCEntry) : Bool :=
  e.children.all (fun c => c.parent_id == some e.id && c.level == e.level + 1)

/-- The TOC hierarchy invariant of the specification: roots are level 0 with
no parent, and every child's level is its parent's plus one. -/
def hierarchy_ok (entries : List TOCEntry) : Bool :=
  entries.all (fun r => r.level == 0 && r.parent_id == none)
    && (flatten entries).all child_links_ok

/-! ## Selection persistence (`docuagent/toc/persistence.py`)

The selections file is YAML written by `save_selections` and read back by
`load_selections` through `yaml.safe_load`; the descriptions file is JSON.
A `SelFile` / `DescFile` value is the state the load methods observe:
the file may be missing, hold text the parser cannot parse (`yaml.safe_load`
raises `yaml.YAMLError`, `json.load` raises `JSONDecodeError` — neither load
method catches anything), parse to a falsy value (`yaml.safe_load(f) or {}`
turns it into an empty dict; only modelled for YAML since `load_descriptions`
has no such guard), parse to a truthy non-mapping (`.get` then raises
`AttributeError`), or parse to a mapping whose optional `"selections"` /
`"descriptions"` key holds the entries. `version`, `updated_at` and
`metadata`, which `load_selections` never reads, are not modelled. -/

/-- One value of the `selections` mapping as read back from YAML: the three
serialized fields, each possibly absent (`sel_data.get(...)`). -/
structure SelEntryData where
  included : Option Bool := none
  custom_title : Option String := none
  custom_description : Option String := none
deriving Repr, DecidableEq

inductive SelFile where
  | missing
  | unparseable
  | parsedNull
  | parsedNonDict
  | parsedDict (selections : Option (List (String × SelEntryData)))
deriving Repr, DecidableEq

inductive DescFile where
  | missing
  | unparseable
  | parsedNonDict
  | parsedDict (descriptions : Option (List (String × String)))
deriving Repr, DecidableEq

/-- The exception a load can raise: the YAML parse error, the JSON parse
error, or the `AttributeError` of calling `.get` on a non-dict. -/
inductive LoadErr where
  | yamlError
  | jsonError
  | attrError
deriving Repr, DecidableEq

abbrev SelMap := List (String × TOCSelection)

/-- `SelectionManager.load_selections` (persistence.py:69): a missing file is
an empty map; unparseable content lets the YAML error propagate; a falsy parse
result becomes `{}`; a truthy non-mapping raises on `.get`; a mapping yields
one `TOCSelection` per `selections` entry with `included` defaulting to
`True`. -/
def load_selections : SelFile → Except LoadErr SelMap
  | .missing => .ok []
  | .unparseable => .error .yamlError
  | .parsedNull => .ok []
  | .parsedNonDict => .error .attrError
  | .parsedDict sels =>
    .ok ((sels.getD []).map (fun p =>
      (p.1, { entry_id := p.1, included := p.2.included.getD true,
              custom_title := p.2.custom_title,
              custom_description := p.2.custom_description })))

/-- `SelectionManager.save_selections` (persistence.py:39): rewrites the whole
selections file with exactly the `included` / `custom_title` /
`custom_description` fields of the given map. -/
def save_selections (selections : SelMap) : SelFile :=
  .parsedDict (some (selections.map (fun p =>
    (p.1, { included := some p.2.included, custom_title := p.2.custom_title,
            custom_description := p.2.custom_description }))))

/-- `SelectionManager.load_descriptions` (persistence.py:239): missing file is
an empty map; unparseable JSON propagates; otherwise
`data.get("descriptions", {})`. -/
def load_descriptions : DescFile → Except LoadErr (List (String × String))
  | .missing => .ok []
  | .unparseable => .error .jsonError
  | .parsedNonDict => .error .attrError
  | .parsedDict descs => .ok (descs.getD [])

/-- The selection `_process_entry` stores for one id (persistence.py:152):
the existing selection verbatim if one exists, else a fresh record with
`included = default_included`. -/
def pick_selection (existing : SelMap) (dflt : Bool) (i : String) : TOCSelection :=
  match existing.lookup i with
  | some s => s
  | none => { entry_id := i, included := dflt }

mutual

/-- The inner `_process_entry` of `initialize_from_toc` (persistence.py:151),
with the mutated `selections` dict threaded as `acc`. -/
def process_entry (existing : SelMap) (dflt : Bool) (acc : SelMap) :
    TOCEntry → SelMap
  | .mk i _ _ _ _ _ _ ch =>
    process_list existing dflt
      (dinsert i (pick_selection existing dflt i) acc) ch

/-- The `for entry in entries: _process_entry(entry)` loop of
`initialize_from_toc` (persistence.py:165), also used for the recursion over
`entry.children`. -/
def process_list (existing : SelMap) (dflt : Bool) (acc : SelMap) :
    List TOCEntry → SelMap
  | [] => acc
  | e :: es => process_list existing dflt (process_entry existing dflt acc e) es

end

/-- `SelectionManager.initialize_from_toc` (persistence.py:132): load the
existing selections (propagating any load exception), merge against the
outline, persist the merged map (a whole-file rewrite) and return it. The
resulting pair is (state of the selections file after `save_selections`,
returned map). -/
def initialize_from_toc (store : SelFile) (entries : List TOCEntry)
    (default_included : Bool) : Except LoadErr (SelFile × SelMap) := do
  let existing ← load_selections store
  let selections := process_list existing default_included [] entries
  pure (save_selections selections, selections)

/-- Ids present in the stored selections file, for stating what a
`save_selections` rewrite keeps. -/
def sel_file_ids : SelFile → List String
  | .parsedDict (some sels) => sels.map Prod.fst
  | _ => []

/-! ## Specification-side definitions

These re-state, in the words of the specification claims, what certain
functions should produce; the claim theorems compare them with the embedded
source functions. -/

/-- Spec wording of C6: defaults align to the last N positional parameters —
pad the front of the defaults list so it pairs positionally. -/
def spec_defaults_padded (args : ArgumentsNode) : List (Option String) :=
  List.replicate (args.args.length - args.defaults.length) none ++ args.defaults

/-- Spec wording of C6 for the positional block: pair each positional
parameter with its aligned default, drop the implicit first parameter when it
is `self`/`cls`. -/
def spec_positional (args : ArgumentsNode) : List ParameterInfo :=
  let paired := args.args.zip (spec_defaults_padded args)
  let dropped :=
    match paired with
    | [] => []
    | (a, d) :: rest => if a.arg = "self" ∨ a.arg = "cls" then rest else (a, d) :: rest
  dropped.map (fun p => { name := p.1.arg, type_ann := p.1.ann, default_value := p.2 })

/-- Spec wording of C6 for the whole parameter list: positional block, then
a single `*`-marked entry for the variadic positional parameter, then the
keyword-only parameters with their own defaults, then a single `**`-marked
entry for the variadic keyword parameter. -/
def spec_params_C6 (args : ArgumentsNode) : List ParameterInfo :=
  spec_positional args
    ++ (args.vararg.map (fun a =>
          ({ name := "*" ++ a.arg, type_ann := a.ann } : ParameterInfo))).toList
    ++ (args.kwonlyargs.zip args.kw_defaults).map (fun p =>
          { name := p.1.arg, type_ann := p.1.ann,
            default_value := p.2.getD none })
    ++ (args.kwarg.map (fun a =>
          ({ name := "**" ++ a.arg, type_ann := a.ann } : ParameterInfo))).toList

/-- Spec wording of C9 for function titles: `[async ]name(p1, p2, p3[, ...])`
with at most the first 3 parameters, a parameter that has a default rendered
as `name=...`. -/
def spec_function_title (func : FunctionComponent) : String :=
  let shown := (func.parameters.take 3).map (fun p =>
    if p.default_value.isSome then p.name ++ "=..." else p.name)
  let shown := if func.parameters.length > 3 then shown ++ ["..."] else shown
  (if func.is_async then "async " else "") ++ func.name ++ "("
    ++ String.intercalate ", " shown ++ ")"

/-- Amended spec wording of C9 for method titles: at most the first 2
parameters shown by bare name, and at most one leading role marker chosen by
the priority static over classmethod over async. -/
def spec_method_title (method : MethodComponent) : String :=
  let shown := (method.parameters.take 2).map (fun p => p.name)
  let shown := if method.parameters.length > 2 then shown ++ ["..."] else shown
  (if method.is_static then "@staticmethod "
   else if method.is_classmethod then "@classmethod "
   else if method.is_async then "async " else "")
    ++ method.name ++ "(" ++ String.intercalate ", " shown ++ ")"

/-! ## Concrete instances used by witnesses and counterexamples -/

/-- A stored selections file holding one decision, for id `z`. -/
def c1_store : SelFile :=
  save_selections [("z", { entry_id := "z", included := false })]

/-- A freshly built one-entry outline that does not contain `z`. -/
def c1_entry : TOCEntry := .mk "x" "x" .module 0 none "x.py" 1 []

/-- A stored selections file with `x` explicitly excluded. -/
def c4_store : SelFile :=
  save_selections [("x", { entry_id := "x", included := false })]

/-- An outline containing the previously decided `x` and, nested below it,
the newly discovered `y`. -/
def c4_entries : List TOCEntry :=
  [.mk "x" "x" .module 0 none "x.py" 1 [.mk "y" "Y()" .cls 1 (some "x") "x.py" 3 []]]

/-- A module that parses fine and has a public API. -/
def c5_mod1 : ModuleComponent :=
  { id := "m1", name := "a", file_path := "a.py", line_number := 1,
    functions := [{ id := "f1", name := "f", file_path := "a.py", line_number := 2 }] }

/-- A second parseable module. -/
def c5_mod2 : ModuleComponent :=
  { id := "m2", name := "b", file_path := "b.py", line_number := 1,
    functions := [{ id := "f2", name := "g", file_path := "b.py", line_number := 2 }] }

/-- The argument list of a typical instance method
`def m(self, a: int, b=2, *args, k=3, **kwargs)`. -/
def c6_args : ArgumentsNode :=
  { args := [{ arg := "self" }, { arg := "a", ann := some "int" }, { arg := "b" }],
    defaults := [some "2"],
    vararg := some { arg := "args" },
    kwonlyargs := [{ arg := "k" }],
    kw_defaults := [some (some "3")],
    kwarg := some { arg := "kwargs" } }

/-- A method whose single parameter has a default, `def m(self, x=1)` after
parameter extraction. -/
def c9_method : MethodComponent :=
  { id := "me0", name := "m", file_path := "a.py", line_number := 3,
    parameters := [{ name := "x", default_value := some "1" }] }

/-- An async function with four parameters, the second defaulted. -/
def c9_func : FunctionComponent :=
  { id := "f9", name := "f", file_path := "a.py", line_number := 5, is_async := true,
    parameters := [{ name := "a" }, { name := "b", default_value := some "2" },
      { name := "c" }, { name := "d" }] }

/-- An async classmethod with three parameters, to exercise the role-marker
priority and the two-parameter cap. -/
def c9_method2 : MethodComponent :=
  { id := "me9", name := "g", file_path := "a.py", line_number := 9,
    is_classmethod := true, is_async := true,
    parameters := [{ name := "x" }, { name := "y" }, { name := "z" }] }

/-- A class with a method, a property and a class variable. -/
def c7_class : ClassComponent :=
  { id := "c7", name := "C", file_path := "pkg/mod.py", line_number := 2,
    base_classes := ["Base"],
    methods := [{ id := "me7", name := "run", file_path := "pkg/mod.py", line_number := 3 }],
    properties := [{ id := "p7", name := "val", file_path := "pkg/mod.py", line_number := 4 }],
    class_variables := [{ id := "v7", name := "cv", file_path := "pkg/mod.py", line_number := 5 }] }

/-- A module exercising every TOC entry kind: the class above, a standalone
function, a significant constant and an insignificant one. -/
def c7_module : ModuleComponent :=
  { id := "m7", name := "mod", file_path := "pkg/mod.py", line_number := 1,
    classes := [c7_class],
    functions := [{ id := "f7", name := "go", file_path := "pkg/mod.py", line_number := 6 }],
    constants := [{ id := "k7", name := "MAX", file_path := "pkg/mod.py", line_number := 7 },
      { id := "k8", name := "low", file_path := "pkg/mod.py", line_number := 8 }] }

/-- A TOC generator with the default flags. -/
def c7_gen : TOCGenerator := {}

/-! ## Association-list and merge lemmas -/

theorem lookup_dinsert (k i : String) (v : α) (l : List (String × α)) :
    (dinsert k v l).lookup i = if k = i then some v else l.lookup i := by
  induction l with
  | nil =>
    by_cases h : k = i
    · subst h; simp [dinsert, List.lookup]
    · have hb : (i == k) = false := by
        simp only [beq_eq_false_iff_ne]
        exact fun hh => h hh.symm
      simp [dinsert, List.lookup, hb, h]
  | cons p rest ih =>
    obtain ⟨k', v'⟩ := p
    by_cases h1 : k' = k
    · subst h1
      by_cases h : k' = i
      · subst h; simp [dinsert, List.lookup]
      · have hb : (i == k') = false := by
          simp only [beq_eq_false_iff_ne]
          exact fun hh => h hh.symm
        simp [dinsert, List.lookup, hb, h]
    · by_cases h : i = k'
      · subst h
        have hk : ¬ k = i := fun hh => h1 hh.symm
        simp [dinsert, List.lookup, h1, hk]
      · have hb : (i == k') = false := by
          simp only [beq_eq_false_iff_ne]
          exact h
        simp [dinsert, List.lookup, h1, hb, ih]

theorem mem_dinsert {q : String × α} {k : String} {v : α} :
    ∀ {l : List (String × α)}, q ∈ dinsert k v l → q = (k, v) ∨ q ∈ l := by
  intro l
  induction l with
  | nil =>
    intro h
    simp [dinsert] at h
    left
    exact h
  | cons p rest ih =>
    obtain ⟨k', v'⟩ := p
    intro h
    by_cases hk : k' = k
    · subst hk
      simp only [dinsert, if_pos rfl, ite_true, List.mem_cons] at h
      rcases h with h | h
      · exact Or.inl h
      · exact Or.inr (List.mem_cons_of_mem _ h)
    · simp only [dinsert, if_neg hk, List.mem_cons] at h
      rcases h with h | h
      · exact Or.inr (by simp [h])
      · rcases ih h with h' | h'
        · exact Or.inl h'
        · exact Or.inr (List.mem_cons_of_mem _ h')

theorem lookup_eq_none_iff (l : List (String × α)) (i : String) :
    l.lookup i = none ↔ i ∉ l.map Prod.fst := by
  induction l with
  | nil => simp [List.lookup]
  | cons p rest ih =>
    obtain ⟨k, v⟩ := p
    by_cases h : i = k
    · subst h
      simp [List.lookup]
    · have hb : (i == k) = false := by
        simp only [beq_eq_false_iff_ne]
        exact h
      simp [List.lookup, hb, ih, h]

theorem lookup_entry_id {l : SelMap} (hw : ∀ p ∈ l, (p.2).entry_id = p.1)
    {i : String} {s : TOCSelection} (h : l.lookup i = some s) :
    s.entry_id = i := by
  induction l with
  | nil => simp [List.lookup] at h
  | cons p rest ih =>
    obtain ⟨k, v⟩ := p
    by_cases hk : i = k
    · subst hk
      simp [List.lookup] at h
      have := hw (i, v) (by simp)
      simpa [← h] using this
    · have hb : (i == k) = false := by
        simp only [beq_eq_false_iff_ne]
        exact hk
      simp only [List.lookup, hb] at h
      exact ih (fun p hp => hw p (List.mem_cons_of_mem _ hp)) h

/-- Lookup in the merged map `_process_entry` builds: any id of the outline
maps to the merged value (existing record, else fresh default); any other id
keeps whatever the accumulator held. -/
theorem process_list_lookup (ex : SelMap) (dflt : Bool) (l : List TOCEntry)
    (acc : SelMap) (i : String) :
    (process_list ex dflt acc l).lookup i =
      if i ∈ (flatten l).map TOCEntry.id then some (pick_selection ex dflt i)
      else acc.lookup i := by
  induction acc, l using process_list.induct ex dflt with
  | motive_1 acc e =>
    exact (process_entry ex dflt acc e).lookup i =
      if i ∈ (flattenEntry e).map TOCEntry.id then some (pick_selection ex dflt i)
      else acc.lookup i
  | case1 acc eid _ _ _ _ _ _ ch ih =>
    simp only [process_entry, flattenEntry, List.map_cons, List.mem_cons, TOCEntry.id]
    rw [ih]
    by_cases h1 : i ∈ (flatten ch).map TOCEntry.id
    · simp [h1]
    · by_cases h2 : eid = i
      · subst h2; simp [h1, lookup_dinsert]
      · have h3 : ¬ i = eid := fun hh => h2 hh.symm
        simp [h1, h2, h3, lookup_dinsert]
  | case2 acc => simp [process_list, flatten]
  | case3 acc e es ih1 ih2 =>
    simp only [process_list, flatten, List.map_append, List.mem_append]
    rw [ih2, ih1]
    by_cases h1 : i ∈ (flattenEntry e).map TOCEntry.id <;>
      by_cases h2 : i ∈ (flatten es).map TOCEntry.id <;> simp [h1, h2]

/-- Every pair of the merged map is keyed by its own `entry_id`, provided the
existing map and the accumulator are. -/
theorem process_list_entry_id (ex : SelMap) (dflt : Bool)
    (hex : ∀ p ∈ ex, (p.2).entry_id = p.1) (l : List TOCEntry) (acc : SelMap) :
    (∀ p ∈ acc, (p.2).entry_id = p.1) →
      ∀ p ∈ process_list ex dflt acc l, (p.2).entry_id = p.1 := by
  induction acc, l using process_list.induct ex dflt with
  | motive_1 acc e =>
    exact (∀ p ∈ acc, (p.2).entry_id = p.1) →
      ∀ p ∈ process_entry ex dflt acc e, (p.2).entry_id = p.1
  | case1 acc eid _ _ _ _ _ _ ch ih =>
    intro hacc
    simp only [process_entry]
    apply ih
    intro p hp
    rcases mem_dinsert hp with h | h
    · subst h
      simp only [pick_selection]
      cases hL : ex.lookup eid with
      | some s => simpa using lookup_entry_id hex hL
      | none => rfl
    · exact hacc p h
  | case2 acc =>
    intro hacc
    simpa [process_list] using hacc
  | case3 acc e es ih1 ih2 =>
    intro hacc
    simp only [process_list]
    exact ih2 (ih1 hacc)

theorem load_selections_entry_id (store : SelFile) (existing : SelMap)
    (h : load_selections store = .ok existing) :
    ∀ p ∈ existing, (p.2).entry_id = p.1 := by
  cases store with
  | missing =>
    simp only [load_selections, Except.ok.injEq] at h
    subst h; simp
  | unparseable => simp [load_selections] at h
  | parsedNull =>
    simp only [load_selections, Except.ok.injEq] at h
    subst h; simp
  | parsedNonDict => simp [load_selections] at h
  | parsedDict sels =>
    simp only [load_selections, Except.ok.injEq] at h
    subst h
    intro p hp
    simp only [List.mem_map] at hp
    obtain ⟨q, _, rfl⟩ := hp
    rfl

/-- A map whose every value is keyed by its own `entry_id` survives the
save/load round trip unchanged. -/
theorem load_save_roundtrip (sels : SelMap)
    (h : ∀ p ∈ sels, (p.2).entry_id = p.1) :
    load_selections (save_selections sels) = .ok sels := by
  simp only [save_selections, load_selections, Option.getD_some, List.map_map,
    Except.ok.injEq]
  induction sels with
  | nil => rfl
  | cons p rest ih =>
    obtain ⟨k, v⟩ := p
    obtain ⟨eid, inc, ct, cd⟩ := v
    have hk : eid = k := h (k, ⟨eid, inc, ct, cd⟩) (by simp)
    subst hk
    simp only [List.map_cons, Function.comp_apply, Option.getD_some,
      List.cons.injEq]
    exact ⟨by simp, ih (fun q hq => h q (List.mem_cons_of_mem _ hq))⟩

/-! ## Claims C1 and C4: selection merge and orphan handling -/

/-- C1 counterexample: the claim states that a persisted selection whose id
does not appear in the outline is retained in storage after
`initialize_from_toc` runs. With a stored selection for `z` and an outline
containing only `x`, the merged map drops `z` and the rewritten selections
file holds only `x`: the orphan is pruned, refuting the claim at this
input. -/
theorem orphan_retention_counterexample_C1 :
    load_selections c1_store = .ok [("z", { entry_id := "z", included := false })] ∧
    initialize_from_toc c1_store [c1_entry] true =
      .ok (save_selections [("x", { entry_id := "x" })], [("x", { entry_id := "x" })]) ∧
    "z" ∉ sel_file_ids (save_selections [("x", { entry_id := "x" })]) ∧
    ([("x", ({ entry_id := "x" } : TOCSelection))]).lookup "z" = none := by
  refine ⟨by decide, by decide, by decide, by decide⟩

/-- C1 (amended): `initialize_from_toc` rebuilds the selection map from only
the ids of the fresh outline and overwrites the selections file with exactly
that merged map, so a persisted selection whose id does not appear in the
outline is pruned: it is absent both from the returned map and from
storage. -/
theorem orphan_pruned_C1 (store : SelFile) (existing : SelMap)
    (entries : List TOCEntry) (dflt : Bool) (i : String)
    (h1 : load_selections store = .ok existing)
    (h2 : i ∉ (flatten entries).map TOCEntry.id) :
    ∃ sels, initialize_from_toc store entries dflt = .ok (save_selections sels, sels) ∧
      sels.lookup i = none ∧ i ∉ sel_file_ids (save_selections sels) := by
  refine ⟨process_list existing dflt [] entries, ?_, ?_, ?_⟩
  · unfold initialize_from_toc
    rw [h1]
    rfl
  · rw [process_list_lookup]
    simp [h2, List.lookup]
  · have hnone : (process_list existing dflt [] entries).lookup i = none := by
      rw [process_list_lookup]
      simp [h2, List.lookup]
    have hmem := (lookup_eq_none_iff _ i).mp hnone
    simp only [sel_file_ids, save_selections, List.map_map]
    intro hc
    apply hmem
    simpa using hc

theorem orphan_pruned_C1_witness :
    load_selections c1_store = .ok [("z", { entry_id := "z", included := false })] ∧
    "z" ∉ (flatten [c1_entry]).map TOCEntry.id ∧
    (∃ sels, initialize_from_toc c1_store [c1_entry] true =
        .ok (save_selections sels, sels) ∧
      sels.lookup "z" = none ∧ "z" ∉ sel_file_ids (save_selections sels)) :=
  ⟨by decide, by decide,
    orphan_pruned_C1 c1_store [("z", { entry_id := "z", included := false })]
      [c1_entry] true "z" (by decide) (by decide)⟩

/-- C4: `initialize_from_toc` keeps the stored selection verbatim for every
outline id that already has one (a stored `included = false` stays `false`),
creates a fresh selection with `included = true` (the default) for every
outline id without a prior record — at every nesting level, because the
outline ids are collected recursively — and the merged map survives a
save/load round trip unchanged. -/
theorem selection_merge_C4 (store : SelFile) (existing : SelMap)
    (entries : List TOCEntry)
    (h1 : load_selections store = .ok existing) :
    ∃ sels, initialize_from_toc store entries true = .ok (save_selections sels, sels) ∧
      (∀ i ∈ (flatten entries).map TOCEntry.id,
        sels.lookup i = some (match existing.lookup i with
          | some s => s
          | none => { entry_id := i, included := true })) ∧
      load_selections (save_selections sels) = .ok sels := by
  refine ⟨process_list existing true [] entries, ?_, ?_, ?_⟩
  · unfold initialize_from_toc
    rw [h1]
    rfl
  · intro i hi
    rw [process_list_lookup]
    simp only [hi, if_true, ite_true, if_pos]
    rfl
  · apply load_save_roundtrip
    exact process_list_entry_id existing true
      (load_selections_entry_id store existing h1) entries [] (by simp)

theorem selection_merge_C4_witness :
    load_selections c4_store = .ok [("x", { entry_id := "x", included := false })] ∧
    (∃ sels, initialize_from_toc c4_store c4_entries true =
        .ok (save_selections sels, sels) ∧
      (∀ i ∈ (flatten c4_entries).map TOCEntry.id,
        sels.lookup i = some (match
            ([("x", { entry_id := "x", included := false })] : SelMap).lookup i with
          | some s => s
          | none => { entry_id := i, included := true })) ∧
      load_selections (save_selections sels) = .ok sels) :=
  ⟨by decide,
    selection_merge_C4 c4_store [("x", { entry_id := "x", included := false })]
      c4_entries (by decide)⟩

/-! ## Claim C2: behaviour of the load methods on missing and malformed files -/

/-- C2 counterexample: the claim states that a malformed persisted file loads
as the empty store; in the code neither `load_selections` nor
`load_descriptions` catches anything, so unparseable content propagates the
parser error instead of yielding the empty map. -/
theorem storage_corruption_counterexample_C2 :
    load_selections SelFile.unparseable = .error LoadErr.yamlError ∧
    load_selections SelFile.unparseable ≠ .ok [] ∧
    load_descriptions DescFile.unparseable = .error LoadErr.jsonError ∧
    load_descriptions DescFile.unparseable ≠ .ok [] := by
  refine ⟨by decide, by decide, by decide, by decide⟩

/-- C2 (amended): fail open applies only to a missing file (and, for the
selections file, to content that parses to an empty or key-less mapping);
content that cannot be parsed raises the parser error, and a parsed
non-mapping raises on the `.get` call. -/
theorem storage_fail_open_scope_C2 :
    load_selections SelFile.missing = .ok [] ∧
    load_descriptions DescFile.missing = .ok [] ∧
    load_selections SelFile.parsedNull = .ok [] ∧
    load_selections (SelFile.parsedDict none) = .ok [] ∧
    load_descriptions (DescFile.parsedDict none) = .ok [] ∧
    (∀ d, ∃ m, load_selections (SelFile.parsedDict d) = .ok m) ∧
    (∀ d, ∃ m, load_descriptions (DescFile.parsedDict d) = .ok m) ∧
    load_selections SelFile.unparseable = .error LoadErr.yamlError ∧
    load_descriptions DescFile.unparseable = .error LoadErr.jsonError ∧
    load_selections SelFile.parsedNonDict = .error LoadErr.attrError ∧
    load_descriptions DescFile.parsedNonDict = .error LoadErr.attrError :=
  ⟨rfl, rfl, rfl, rfl, rfl, fun _ => ⟨_, rfl⟩, fun _ => ⟨_, rfl⟩, rfl, rfl, rfl, rfl⟩

/-! ## Claim C3: module-level visibility policy -/

/-- C3: the claim (and the comment in `_should_include` itself) says dunder
names are excluded at module level unless allow-listed, but the code only
excludes names that start with a single underscore and not two: the dunder
name `__str__`, which is not in the special-method allow-list, is included
with include-private off and no export list. The export-list and
single-underscore parts of the policy behave as claimed. -/
theorem module_visibility_dunder_C3 :
    should_include false "__str__" none = true ∧
    "__str__" ∉ special_methods ∧
    should_include false "_helper" none = false ∧
    should_include false "A" (some ["A"]) = true ∧
    should_include false "B" (some ["A"]) = false ∧
    should_include false "_C" (some ["A"]) = false ∧
    should_include true "_helper" none = true := by
  refine ⟨by decide, by decide, by decide, by decide, by decide, by decide, by decide⟩

/-! ## Claim C8: class-member visibility policy -/

/-- C8: a class member is included exactly when include-private is on, or its
name is one of the five special methods (`__init__`, `__new__`, `__call__`,
`__enter__`, `__exit__`), or its name does not start with an underscore; in
particular allow-listed special methods are always included, every other
underscore-prefixed member is excluded, and include-private includes
everything. -/
theorem method_visibility_C8 (include_private : Bool) (name : String) :
    should_include_method include_private name = true ↔
      include_private = true ∨ name ∈ special_methods ∨ starts_with name "_" = false := by
  cases include_private with
  | true => simp [should_include_method]
  | false =>
    simp only [should_include_method, Bool.false_eq_true, if_false, false_or]
    by_cases hs : special_methods.contains name
    · have hm : name ∈ special_methods := by simpa using hs
      simp [hs, hm]
    · have hnm : name ∉ special_methods := by
        intro hm
        apply hs
        simpa using hm
      by_cases hu : starts_with name "_"
      · simp [hs, hu, hnm]
      · simp [hs, hu, hnm]

/-! ## Claims C6 and C10: parameter extraction -/

theorem pos_loop_names (off : Int) (ds : List (Option String)) :
    ∀ (l : List ArgNode) (i : Nat),
      (pos_loop off ds i l).map (fun p => p.name) =
        (l.map ArgNode.arg).filter (fun n => !(n == "self" || n == "cls")) := by
  intro l
  induction l with
  | nil => intro i; simp [pos_loop]
  | cons a rest ih =>
    intro i
    by_cases h : a.arg = "self" ∨ a.arg = "cls"
    · rcases h with h | h <;> simp [pos_loop, h, ih, List.filter_cons]
    · push_neg at h
      have hb : (a.arg == "self" || a.arg == "cls") = false := by
        simp [h.1, h.2]
      simp [pos_loop, hb, ih, List.filter_cons, h.1, h.2]

theorem kwonly_loop_names :
    ∀ (l : List ArgNode) (kds : List (Option (Option String))) (i : Nat),
      (kwonly_loop i l kds).map (fun p => p.name) = l.map ArgNode.arg := by
  intro l
  induction l with
  | nil => intro kds i; simp [kwonly_loop]
  | cons a rest ih => intro kds i; simp [kwonly_loop, ih]

/-- C10 counterexample: the claim says a parameter named `self` or `cls` is
dropped regardless of its position in the signature, but the drop only runs
over the positional list: a keyword-only parameter named `self`
(`def f(*, self)` is legal) survives extraction. -/
theorem self_by_name_counterexample_C10 :
    parse_parameters { kwonlyargs := [{ arg := "self" }], kw_defaults := [none] } =
      [{ name := "self" }] ∧
    "self" ∈ (parse_parameters
      { kwonlyargs := [{ arg := "self" }], kw_defaults := [none] }).map
        (fun p => p.name) := by
  refine ⟨by decide, by decide⟩

/-- C10 (amended): within the positional parameter list the drop is purely by
name — every positional parameter named exactly `self` or `cls` is omitted at
any position and for any callable kind (standalone functions and static
methods included), while keyword-only and variadic parameters are never
dropped: the extracted names are exactly the positional names filtered of
`self`/`cls`, then the starred variadic entries and keyword-only names kept
verbatim. -/
theorem self_cls_dropped_by_name_C10 (args : ArgumentsNode) :
    (parse_parameters args).map (fun p => p.name) =
      ((args.args.map ArgNode.arg).filter (fun n => !(n == "self" || n == "cls")))
        ++ (args.vararg.map (fun a => "*" ++ a.arg)).toList
        ++ args.kwonlyargs.map ArgNode.arg
        ++ (args.kwarg.map (fun a => "**" ++ a.arg)).toList := by
  cases hv : args.vararg <;> cases hk : args.kwarg <;>
    simp [parse_parameters, hv, hk, pos_loop_names, kwonly_loop_names]

theorem replicate_getD (n : Nat) (a d : α) (i : Nat) :
    (List.replicate n a).getD i d = if i < n then a else d := by
  by_cases h : i < n
  · rw [if_pos h, List.getD_eq_getElem _ _ (by simpa using h), List.getElem_replicate]
  · rw [if_neg h, List.getD_eq_default]
    simp only [List.length_replicate]
    omega

theorem aligned_default (n k : Nat) (hk : k ≤ n) (ds : List (Option String))
    (hds : ds.length = k) (j : Nat) :
    (if ((j : Int)) ≥ (n : Int) - (k : Int) then
        ds.getD (((j : Int) - ((n : Int) - (k : Int))).toNat) none
      else none)
      = (List.replicate (n - k) none ++ ds).getD j none := by
  by_cases h : (j : Int) ≥ (n : Int) - (k : Int)
  · rw [if_pos h]
    rw [List.getD_append_right _ _ _ _ (by simp only [List.length_replicate]; omega)]
    congr 1
    simp only [List.length_replicate]
    omega
  · rw [if_neg h]
    rw [List.getD_append _ _ _ j (by simp only [List.length_replicate]; omega)]
    rw [replicate_getD, if_pos (by omega : j < n - k)]

theorem pos_loop_eq_zip (off : Int) (ds : List (Option String)) :
    ∀ (l : List ArgNode) (Q : List (Option String)) (i : Nat),
      (∀ a ∈ l, a.arg ≠ "self" ∧ a.arg ≠ "cls") →
      Q.length = l.length →
      (∀ j, j < l.length →
        (if ((i : Int) + j) ≥ off then ds.getD (((i : Int) + j - off).toNat) none else none)
          = Q.getD j none) →
      pos_loop off ds i l = (l.zip Q).map (fun p =>
        { name := p.1.arg, type_ann := p.1.ann, default_value := p.2 }) := by
  intro l
  induction l with
  | nil =>
    intro Q i _ _ _
    simp [pos_loop]
  | cons a rest ih =>
    intro Q i hself hlen hQ
    cases Q with
    | nil => simp at hlen
    | cons q Q' =>
      have ha := hself a (List.mem_cons_self _ _)
      have hcond : ¬(a.arg = "self" ∨ a.arg = "cls") := by
        rintro (h | h)
        · exact ha.1 h
        · exact ha.2 h
      have h0 : (if (i : Int) ≥ off then ds.getD (((i : Int) - off).toNat) none else none)
          = q := by
        have := hQ 0 (by simp)
        simpa using this
      simp only [pos_loop, if_neg hcond, List.zip_cons_cons, List.map_cons]
      rw [h0]
      congr 1
      apply ih
      · exact fun a' ha' => hself a' (List.mem_cons_of_mem _ ha')
      · simpa using hlen
      · intro j hj
        have hs := hQ (j + 1) (by simpa using Nat.succ_lt_succ hj)
        have harith : ((i : Int) + ((j + 1 : Nat) : Int)) = (((i + 1 : Nat) : Int) + j) := by
          push_cast
          ring
        rw [harith] at hs
        simpa using hs

theorem kwonly_loop_eq_zip :
    ∀ (l : List ArgNode) (kds : List (Option (Option String))) (i : Nat),
      kds.length = i + l.length →
      kwonly_loop i l kds = (l.zip (kds.drop i)).map (fun p =>
        { name := p.1.arg, type_ann := p.1.ann, default_value := p.2.getD none }) := by
  intro l
  induction l with
  | nil => intro kds i _; simp [kwonly_loop]
  | cons a rest ih =>
    intro kds i h
    have hi : i < kds.length := by
      simp only [List.length_cons] at h
      omega
    rw [List.drop_eq_getElem_cons hi]
    have hget : kds.getD i none = kds[i] := List.getD_eq_getElem kds none hi
    simp only [kwonly_loop, hget, List.zip_cons_cons, List.map_cons]
    congr 1
    · cases hx : kds[i] with
      | none => rfl
      | some v => rfl
    · have h' : kds.length = (i + 1) + rest.length := by
        simp only [List.length_cons] at h
        omega
      exact ih kds (i + 1) h'

/-- Positional block of `_parse_parameters` against the spec wording: pair
each positional argument with the default aligned to the last N positions,
then drop the first pair when its name is `self`/`cls`. -/
theorem pos_block_eq (al : List ArgNode) (ds : List (Option String))
    (h1 : ds.length ≤ al.length)
    (h2 : ∀ a ∈ al.tail, a.arg ≠ "self" ∧ a.arg ≠ "cls") :
    pos_loop ((al.length : Int) - (ds.length : Int)) ds 0 al =
      (match al.zip (List.replicate (al.length - ds.length) none ++ ds) with
        | [] => []
        | (a, d) :: rest =>
          if a.arg = "self" ∨ a.arg = "cls" then rest else (a, d) :: rest).map
        (fun p : ArgNode × Option String =>
          { name := p.1.arg, type_ann := p.1.ann, default_value := p.2 }) := by
  cases al with
  | nil => simp [pos_loop]
  | cons a rest =>
    have hself : ∀ a' ∈ rest, a'.arg ≠ "self" ∧ a'.arg ≠ "cls" := by
      simpa using h2
    have hP : (List.replicate ((a :: rest).length - ds.length) none ++ ds).length
        = (a :: rest).length := by
      simp only [List.length_append, List.length_replicate]
      omega
    rcases hPs : List.replicate ((a :: rest).length - ds.length) none ++ ds with _ | ⟨p0, P'⟩
    · rw [hPs] at hP
      simp at hP
    · have hP' : P'.length = rest.length := by
        rw [hPs] at hP
        simp only [List.length_cons] at hP
        simpa using hP
      have hidx : ∀ j, j < rest.length →
          (if (((1 : Nat) : Int) + j) ≥ ((a :: rest).length : Int) - (ds.length : Int) then
              ds.getD (((((1 : Nat) : Int) + j) - (((a :: rest).length : Int) - (ds.length : Int))).toNat) none
            else none) = P'.getD j none := by
        intro j hj
        have := aligned_default (a :: rest).length ds.length h1 ds rfl (j + 1)
        rw [hPs] at this
        have harith : (((j + 1 : Nat)) : Int) = ((1 : Nat) : Int) + j := by
          push_cast
          ring
        rw [harith] at this
        simpa using this
      have htail := pos_loop_eq_zip ((( a :: rest).length : Int) - (ds.length : Int)) ds
        rest P' 1 hself hP' hidx
      by_cases hc : a.arg = "self" ∨ a.arg = "cls"
      · simp only [pos_loop, if_pos hc, hPs, List.zip_cons_cons, if_pos hc, Nat.zero_add]
        exact htail
      · have h0 : (if (((0 : Nat)) : Int) ≥ ((a :: rest).length : Int) - (ds.length : Int) then
            ds.getD (((((0 : Nat)) : Int) - (((a :: rest).length : Int) - (ds.length : Int))).toNat) none
          else none) = p0 := by
          have := aligned_default (a :: rest).length ds.length h1 ds rfl 0
          rw [hPs] at this
          simpa using this
        simp only [pos_loop, if_neg hc, hPs, List.zip_cons_cons, if_neg hc, List.map_cons,
          Nat.zero_add]
        rw [htail, h0]

/-- C6: parameter extraction agrees with the specification wording — the
implicit leading `self`/`cls` is dropped, defaults align to the last N
positional parameters, the variadic positional and keyword parameters appear
as single `*`/`**`-prefixed entries after the named block, and keyword-only
parameters keep their own defaults. Hypotheses: the AST well-formedness the
grammar guarantees (no more defaults than positional parameters, one
keyword-default slot per keyword-only parameter) and that `self`/`cls` can
appear only as the first positional parameter. -/
theorem parameter_extraction_C6 (args : ArgumentsNode)
    (h1 : args.defaults.length ≤ args.args.length)
    (h2 : ∀ a ∈ args.args.tail, a.arg ≠ "self" ∧ a.arg ≠ "cls")
    (h3 : args.kw_defaults.length = args.kwonlyargs.length) :
    parse_parameters args = spec_params_C6 args := by
  have hkzip := kwonly_loop_eq_zip args.kwonlyargs args.kw_defaults 0 (by omega)
  have hpos := pos_block_eq args.args args.defaults h1 h2
  simp only [parse_parameters, spec_params_C6, spec_positional, spec_defaults_padded]
  rw [hpos, hkzip]
  simp only [List.drop_zero]
  cases args.vararg <;> cases args.kwarg <;> simp

theorem parameter_extraction_C6_witness :
    c6_args.defaults.length ≤ c6_args.args.length ∧
    (∀ a ∈ c6_args.args.tail, a.arg ≠ "self" ∧ a.arg ≠ "cls") ∧
    c6_args.kw_defaults.length = c6_args.kwonlyargs.length ∧
    parse_parameters c6_args = spec_params_C6 c6_args :=
  ⟨by decide, by decide, by decide,
    parameter_extraction_C6 c6_args (by decide) (by decide) (by decide)⟩

/-! ## Claim C5: per-file parse failure handling -/

/-- C5 counterexample: the claim says parsing yields a typed failure that
distinguishes a malformed-syntax failure from an encoding failure, but
`parse_file` returns the same `None` for both caught exceptions — the result
carries no distinction. -/
theorem parse_failure_untyped_counterexample_C5 :
    parse_file (ParseOutcome.synErr "invalid syntax") =
      parse_file (ParseOutcome.encErr "invalid start byte") ∧
    parse_file (ParseOutcome.synErr "invalid syntax") = none := by
  refine ⟨rfl, rfl⟩

/-- C5 (amended): parsing yields either one module record or `None` — the
same `None` for malformed syntax and undecodable bytes (the typed distinction
exists only in the printed warning, not in the result) — and a per-file parse
failure is never fatal: extracting a file list with a failing file inserted
anywhere equals extracting the list without it, so the remaining files are
still processed. -/
theorem parse_failure_skipped_C5 (pre post : List ParseOutcome) (f : ParseOutcome)
    (h : f.is_failure = true) :
    parse_file f = none ∧
    (∀ m, parse_file (ParseOutcome.tree m) = some m) ∧
    extract (pre ++ f :: post) = extract (pre ++ post) := by
  have hn : parse_file f = none := by
    cases f with
    | tree m => simp [ParseOutcome.is_failure] at h
    | synErr msg => rfl
    | encErr msg => rfl
  refine ⟨hn, fun m => rfl, ?_⟩
  have hfm : (pre ++ f :: post).filterMap parse_file =
      (pre ++ post).filterMap parse_file := by
    simp [List.filterMap_append, List.filterMap_cons, hn]
  unfold extract
  rw [hfm]

theorem parse_failure_skipped_C5_witness :
    (ParseOutcome.synErr "invalid syntax").is_failure = true ∧
    (parse_file (ParseOutcome.synErr "invalid syntax") = none ∧
      (∀ m, parse_file (ParseOutcome.tree m) = some m) ∧
      extract ([ParseOutcome.tree c5_mod1]
          ++ ParseOutcome.synErr "invalid syntax" :: [ParseOutcome.tree c5_mod2]) =
        extract ([ParseOutcome.tree c5_mod1] ++ [ParseOutcome.tree c5_mod2])) :=
  ⟨by decide,
    parse_failure_skipped_C5 [ParseOutcome.tree c5_mod1] [ParseOutcome.tree c5_mod2]
      (ParseOutcome.synErr "invalid syntax") (by decide)⟩

/-! ## Claim C9: TOC title formatting -/

/-- C9 counterexample: the claim says a method title has the same shape as a
function title, where a defaulted parameter renders as `name=...`; but
`_format_method_title` renders parameter names plainly: a method `m` with the
single defaulted parameter `x` is titled `m(x)`, not `m(x=...)`. -/
theorem method_title_default_counterexample_C9 :
    format_method_title c9_method = "m(x)" ∧ "m(x)" ≠ "m(x=...)" := by
  refine ⟨by decide, by decide⟩

/-- C9 (amended): a function title is `[async ]name(p1, p2, p3[, ...])`
showing at most the first 3 parameters with `name=...` for a parameter that
has a default; a method title shows at most the first 2 parameters by bare
name (no `=...` marker even for defaulted parameters) and at most one leading
role marker chosen by the priority `@staticmethod` over `@classmethod` over
`async`. The hypothesis excludes a default that unparsed to the empty string,
where the truthiness test of the source and "has a default" part ways;
`ast.unparse` never returns an empty string for a present expression. -/
theorem title_formatting_C9 (f : FunctionComponent) (m : MethodComponent)
    (h : ∀ p ∈ f.parameters, p.default_value ≠ some "") :
    format_function_title f = spec_function_title f ∧
    format_method_title m = spec_method_title m := by
  constructor
  · have hmap : (f.parameters.take 3).map
        (fun p => if py_truthy p.default_value then p.name ++ "=..." else p.name)
        = (f.parameters.take 3).map
          (fun p => if p.default_value.isSome then p.name ++ "=..." else p.name) := by
      apply List.map_congr_left
      intro p hp
      have hp' : p ∈ f.parameters := List.mem_of_mem_take hp
      have hne := h p hp'
      cases hd : p.default_value with
      | none => simp [py_truthy, hd]
      | some s =>
        have hs : s ≠ "" := by
          rw [hd] at hne
          simpa using hne
        have hb : (s == "") = false := beq_eq_false_iff_ne.mpr hs
        simp [py_truthy, hd, hb]
    simp only [format_function_title, spec_function_title, hmap]
  · rfl

theorem title_formatting_C9_witness :
    (∀ p ∈ c9_func.parameters, p.default_value ≠ some "") ∧
    (format_function_title c9_func = spec_function_title c9_func ∧
      format_method_title c9_method2 = spec_method_title c9_method2) :=
  ⟨by decide, title_formatting_C9 c9_func c9_method2 (by decide)⟩

/-! ## Claim C7: TOC hierarchy invariant and flatten/lookup recovery -/

theorem flattenEntry_eq (e : TOCEntry) : flattenEntry e = e :: flatten e.children := by
  cases e
  rfl

theorem flatten_append :
    ∀ (l1 l2 : List TOCEntry), flatten (l1 ++ l2) = flatten l1 ++ flatten l2 := by
  intro l1 l2
  induction l1 with
  | nil => rfl
  | cons e es ih => simp [flatten, ih]

theorem flatten_eq_flatMap : ∀ l : List TOCEntry, flatten l = l.flatMap flattenEntry := by
  intro l
  induction l with
  | nil => rfl
  | cons e es ih => simp [flatten, ih]

theorem leaf_child_links (e : TOCEntry) (h : e.children = []) :
    child_links_ok e = true := by
  simp [child_links_ok, h]

theorem flattenEntry_leaf (e : TOCEntry) (h : e.children = []) : flattenEntry e = [e] := by
  rw [flattenEntry_eq, h]
  rfl

theorem flatten_leaves (l : List TOCEntry) (h : ∀ e ∈ l, e.children = []) :
    flatten l = l := by
  induction l with
  | nil => rfl
  | cons e es ih =>
    have h1 := flattenEntry_leaf e (h e (List.mem_cons_self _ _))
    have h2 := ih (fun x hx => h x (List.mem_cons_of_mem _ hx))
    simp [flatten, h1, h2]

theorem create_class_children_leaf (g : TOCGenerator) (cls : ClassComponent)
    (parent : String) :
    ∀ e ∈ (create_class_entry g cls parent).children,
      e.children = [] ∧ e.parent_id = some cls.id ∧ e.level = 2 := by
  intro e he
  simp only [create_class_entry, TOCEntry.children] at he
  rcases List.mem_append.mp he with h | h
  · split at h
    · rcases List.mem_map.mp h with ⟨x, hx, rfl⟩
      exact ⟨rfl, rfl, rfl⟩
    · simp at h
  · split at h
    · rcases List.mem_append.mp h with h2 | h2
      · rcases List.mem_map.mp h2 with ⟨x, hx, rfl⟩
        exact ⟨rfl, rfl, rfl⟩
      · rcases List.mem_map.mp h2 with ⟨x, hx, rfl⟩
        exact ⟨rfl, rfl, rfl⟩
    · simp at h

theorem class_flat_links (g : TOCGenerator) (cls : ClassComponent) (parent : String) :
    ∀ e ∈ flattenEntry (create_class_entry g cls parent), child_links_ok e = true := by
  intro e he
  rw [flattenEntry_eq] at he
  rcases List.mem_cons.mp he with rfl | he2
  · unfold child_links_ok
    rw [List.all_eq_true]
    intro c hc
    obtain ⟨-, hp, hl⟩ := create_class_children_leaf g cls parent c hc
    have h1 : (create_class_entry g cls parent).id = cls.id := rfl
    have h2 : (create_class_entry g cls parent).level = 1 := rfl
    rw [h1, h2, hp, hl]
    simp
  · have hlv : ∀ x ∈ (create_class_entry g cls parent).children, x.children = [] :=
      fun x hx => (create_class_children_leaf g cls parent x hx).1
    rw [flatten_leaves _ hlv] at he2
    exact leaf_child_links e ((create_class_children_leaf g cls parent e he2).1)

theorem create_module_children (g : TOCGenerator) (m : ModuleComponent) :
    ∀ c ∈ (create_module_entry g m).children,
      c.parent_id = some m.id ∧ c.level = 1 := by
  intro c hc
  simp only [create_module_entry, TOCEntry.children] at hc
  rcases List.mem_append.mp hc with h | h
  · rcases List.mem_append.mp h with h2 | h2
    · rcases List.mem_map.mp h2 with ⟨x, hx, rfl⟩
      exact ⟨rfl, rfl⟩
    · rcases List.mem_map.mp h2 with ⟨x, hx, rfl⟩
      exact ⟨rfl, rfl⟩
  · rcases List.mem_map.mp h with ⟨x, hx, rfl⟩
    exact ⟨rfl, rfl⟩

theorem module_flat_links (g : TOCGenerator) (m : ModuleComponent) :
    ∀ e ∈ flattenEntry (create_module_entry g m), child_links_ok e = true := by
  intro e he
  rw [flattenEntry_eq] at he
  rcases List.mem_cons.mp he with rfl | he2
  · unfold child_links_ok
    rw [List.all_eq_true]
    intro c hc
    obtain ⟨hp, hl⟩ := create_module_children g m c hc
    have h1 : (create_module_entry g m).id = m.id := rfl
    have h2 : (create_module_entry g m).level = 0 := rfl
    rw [h1, h2, hp, hl]
    simp
  · simp only [create_module_entry, TOCEntry.children] at he2
    rw [flatten_append, flatten_append] at he2
    rcases List.mem_append.mp he2 with h | h
    · rcases List.mem_append.mp h with h2 | h2
      · rw [flatten_eq_flatMap] at h2
        rcases List.mem_flatMap.mp h2 with ⟨ce, hce, hec⟩
        rcases List.mem_map.mp hce with ⟨cls, hcls, rfl⟩
        exact class_flat_links g cls m.id e hec
      · rw [flatten_leaves] at h2
        · rcases List.mem_map.mp h2 with ⟨fn, hfn, rfl⟩
          exact leaf_child_links _ rfl
        · intro x hx
          rcases List.mem_map.mp hx with ⟨fn, hfn, rfl⟩
          rfl
    · rw [flatten_leaves] at h
      · rcases List.mem_map.mp h with ⟨cst, hcst, rfl⟩
        exact leaf_child_links _ rfl
      · intro x hx
        rcases List.mem_map.mp hx with ⟨cst, hcst, rfl⟩
        rfl

/-- First-match lookup over a list with pairwise distinct ids recovers each
element exactly. -/
theorem find_first_by_id :
    ∀ (l : List TOCEntry), ((l.map TOCEntry.id).Nodup) →
      ∀ e ∈ l, l.find? (fun x => x.id == e.id) = some e := by
  intro l
  induction l with
  | nil =>
    intro _ e he
    simp at he
  | cons x xs ih =>
    intro hnd e he
    rw [List.map_cons, List.nodup_cons] at hnd
    by_cases hx : (x.id == e.id) = true
    · have hxe : x.id = e.id := by simpa using hx
      have hex : e = x := by
        rcases List.mem_cons.mp he with h | h
        · exact h
        · exact absurd (by rw [hxe]; exact List.mem_map.mpr ⟨e, h, rfl⟩) hnd.1
      subst hex
      exact List.find?_cons_of_pos _ hx
    · have hneq : e ≠ x := by
        intro hh
        subst hh
        simp at hx
      have hmem : e ∈ xs := by
        rcases List.mem_cons.mp he with h | h
        · exact absurd h hneq
        · exact h
      have hstep : (x :: xs).find? (fun y => y.id == e.id) =
          xs.find? (fun y => y.id == e.id) :=
        List.find?_cons_of_neg _ (by simpa using hx)
      rw [hstep]
      exact ih hnd.2 e hmem

/-- C7: every outline the TOC builder produces satisfies the hierarchy
invariant — root entries at level 0 with no parent, and every child entry at
its parent level plus one with the parent id recorded — and, when the
component ids are pairwise distinct (the intended reading of ids as unique
keys), flattening in pre-order and re-locating each entry by id recovers
every entry exactly once. -/
theorem toc_hierarchy_C7 (g : TOCGenerator) (modules : List ModuleComponent)
    (h : ((flatten (generate g modules)).map TOCEntry.id).Nodup) :
    hierarchy_ok (generate g modules) = true ∧
    (flatten (generate g modules)).Nodup ∧
    ∀ e ∈ flatten (generate g modules),
      get_entry_by_id (generate g modules) e.id = some e := by
  refine ⟨?_, h.of_map, ?_⟩
  · unfold hierarchy_ok
    rw [Bool.and_eq_true]
    constructor
    · rw [List.all_eq_true]
      intro r hr
      unfold generate at hr
      rcases List.mem_map.mp hr with ⟨m, hm, rfl⟩
      rfl
    · rw [List.all_eq_true]
      intro e he
      unfold generate at he
      rw [flatten_eq_flatMap] at he
      rcases List.mem_flatMap.mp he with ⟨me, hme, hem⟩
      rcases List.mem_map.mp hme with ⟨m, hm, rfl⟩
      exact module_flat_links g m e hem
  · intro e he
    unfold get_entry_by_id
    exact find_first_by_id _ h e he

theorem toc_hierarchy_C7_witness :
    ((flatten (generate c7_gen [c7_module])).map TOCEntry.id).Nodup ∧
    (hierarchy_ok (generate c7_gen [c7_module]) = true ∧
      (flatten (generate c7_gen [c7_module])).Nodup ∧
      ∀ e ∈ flatten (generate c7_gen [c7_module]),
        get_entry_by_id (generate c7_gen [c7_module]) e.id = some e) :=
  ⟨by decide, toc_hierarchy_C7 c7_gen [c7_module] (by decide)⟩
